import Mathlib

/-!
Shallow embedding of `src/unnamed/part_000` (a three.js demo: asset loading,
scene assembly, render loop, resize debouncing).  JavaScript numbers are
modelled as real numbers; `Math.random()` is modelled as an explicit stream
`u : ℕ → ℝ` of draws in `[0, 1)`, consumed in source order.
-/

namespace ObjDemo

/-- A 3-component vector (`THREE.Vector3` / `THREE.Euler`, as plain data). -/
structure Vec3 where
  x : ℝ
  y : ℝ
  z : ℝ

/-- The transform-relevant part of a `THREE.Object3D` (position and rotation);
meshes, groups and loaded OBJ models are all modelled by this record. -/
structure Obj3D where
  position : Vec3
  rotation : Vec3

/-- A default object: identity transform at the origin. -/
def defaultObj : Obj3D := ⟨⟨0, 0, 0⟩, ⟨0, 0, 0⟩⟩

/-- `random(min, max)` from the source:
`Math.random() * (max - min) + min`, with the `Math.random()` draw `r`
made explicit. -/
def random (r min max : ℝ) : ℝ := r * (max - min) + min

/-- One iteration of the loop body of `createParticleCloud`: particle `i`
consumes the six draws `u (6*i) .. u (6*i+5)` in source order
(`aG`, `rG`, `yG`, then the three rotation components). -/
noncomputable def particleAt (u : ℕ → ℝ) (i : ℕ) : Obj3D :=
  let aG := random (u (6 * i)) 0 (Real.pi * 2)
  let rG := random (u (6 * i + 1)) 120 140
  let yG := random (u (6 * i + 2)) (-60) 100
  { position := ⟨rG * Real.cos aG, yG, rG * Real.sin aG⟩
    rotation := ⟨u (6 * i + 3) * Real.pi, u (6 * i + 4) * Real.pi,
                 u (6 * i + 5) * Real.pi⟩ }

/-- `createParticleCloud(n)`: the loop `for(i = 0; i < n; ++i)` adds one mesh
per iteration to a fresh group.  `n` is kept an integer (a JS number): for
`n ≤ 0` the loop guard fails at once and the group stays empty. -/
noncomputable def createParticleCloud (u : ℕ → ℝ) (n : ℤ) : List Obj3D :=
  (List.range n.toNat).map (particleAt u)

/-- The body of the object-ring loop in `initialize`:
`obj.position.x = -100.0 * Math.cos(angle); obj.position.z = -100.0 * Math.sin(angle);`
(the `y` component and the rotation are not touched). -/
noncomputable def ringPlace (obj : Obj3D) (angle : ℝ) : Obj3D :=
  { obj with position := { obj.position with
      x := -100 * Real.cos angle
      z := -100 * Real.sin angle } }

/-- The object-ring loop of `initialize`, with `k` iterations left, current
index `i` and current `angle`; each iteration places asset `i` and then adds
`(Math.PI * 2.0) / 4.0` to the angle. -/
noncomputable def ringGo (assets : ℕ → Obj3D) : ℕ → ℕ → ℝ → List Obj3D
  | 0, _, _ => []
  | k + 1, i, angle =>
      ringPlace (assets i) angle ::
        ringGo assets k (i + 1) (angle + Real.pi * 2 / 4)

/-- The `objects` group built by `initialize(assets)`: the loop
`for(i = 0; i < 4; ++i)` starting from `angle = 0.0`, placing
`assets.get("object" + i)` each round.  `assets i` stands for the map entry
`"object" + i`. -/
noncomputable def initializeObjects (assets : ℕ → Obj3D) : List Obj3D :=
  ringGo assets 4 0 0

/-- Scene state touched by the render loop: the ring members
(`objects.children`), the particle group's own transform, and the particle
meshes inside the group (which `render` never touches). -/
structure SceneState where
  objects : List Obj3D
  particles : Obj3D
  particleChildren : List Obj3D

/-- One invocation of `render` with clock delta `delta`: the loop
`children[i].rotation.y += delta * 0.5` over all ring members, then
`particles.rotation.y += delta * 0.01`.  (`requestAnimationFrame` and
`composer.render(delta)` do not mutate this state.) -/
def render (delta : ℝ) (s : SceneState) : SceneState :=
  { s with
    objects := s.objects.map (fun o =>
      { o with rotation := { o.rotation with y := o.rotation.y + delta * 0.5 } })
    particles := { s.particles with rotation :=
      { s.particles.rotation with
          y := s.particles.rotation.y + delta * 0.01 } } }

/-- A browser resize event at time `time` (milliseconds): from that instant
the window reports dimensions `width × height`. -/
structure DebEvent where
  time : ℕ
  width : ℕ
  height : ℕ
deriving DecidableEq, Repr

/-- Timeline of the `onResize` closure.  State is the captured `id`:
`none` when `id === 0` (idle), `some f` when a `setTimeout(handleResize, 66)`
call is pending and will fire at time `f`.  Events are processed in order;
a pending timer whose fire time has passed fires first (`handleResize` sets
`id = 0`), and an event arriving while idle schedules a new timer
(`id = setTimeout(handleResize, 66, event)`); an event arriving while a timer
is pending is ignored.  Returns the fire times of every `handleResize` call. -/
def debSim : List DebEvent → Option ℕ → List ℕ
  | [], none => []
  | [], some f => [f]
  | e :: rest, none => debSim rest (some (e.time + 66))
  | e :: rest, some f =>
      if f ≤ e.time then f :: debSim rest (some (e.time + 66))
      else debSim rest (some f)

/-- Window dimensions at time `t`, given the resize-event history and the
initial dimensions `(w, h)`: the dimensions of the last event at or before
`t` (events listed in time order).  `handleResize` reads
`event.target.innerWidth` / `innerHeight` at fire time, and `event.target`
is the live `window`, so it sees these current dimensions. -/
def dimsAt (t : ℕ) : List DebEvent → ℕ → ℕ → ℕ × ℕ
  | [], w, h => (w, h)
  | e :: rest, w, h => if e.time ≤ t then dimsAt t rest e.width e.height else (w, h)

/-- The `handleResize` calls produced by a resize-event history, starting
idle with initial window dimensions `w0 × h0`: each call is
`(fire time, width read, height read)`. -/
def handlerCalls (w0 h0 : ℕ) (events : List DebEvent) : List (ℕ × ℕ × ℕ) :=
  (debSim events none).map (fun f => (f, dimsAt f events w0 h0))

/-- Outcome with which the promise returned by `load` settles. -/
inductive LoadResult where
  | resolved
  | rejected
deriving DecidableEq, Repr

/-- State during `load(assets)`: the asset keys written so far (`assets.set`,
key `"object" + i` modelled by the index `i`), the `LoadingManager`'s count
of ended items, and the settlement state of the returned promise. -/
structure LoadState where
  assets : List ℕ
  itemsLoaded : ℕ
  settled : Option LoadResult
deriving DecidableEq, Repr

/-- A promise settles at most once: `resolve` / `reject` after the first
settlement are ignored. -/
def settle (r : LoadResult) (s : LoadState) : LoadState :=
  match s.settled with
  | some _ => s
  | none => { s with settled := some r }

/-- The `loadingManager.onProgress` handler from the source:
`if (loaded === total) resolve();`.  All four `objLoader.load` calls are
issued synchronously inside the promise executor before any request can
settle, so the manager's `total` is the constant 4 at every completion. -/
def onProgress (total : ℕ) (s : LoadState) : LoadState :=
  if s.itemsLoaded = total then settle .resolved s else s

/-- Completion of request `i` (`"models/object" + i + ".obj"`): success or
failure.  Each of the 4 outstanding requests completes exactly once; the
order is decided by the network. -/
inductive LoadEvent where
  | success (i : ℕ)
  | failure (i : ℕ)
deriving DecidableEq, Repr

/-- Effect of one request completion, in the call order of the loader:
on success, the user callback runs first (`assets.set("object" + i, obj)`),
then the manager ends the item and fires `onProgress`; on failure, the
manager fires `onError` (wired to `reject`), then ends the item and fires
`onProgress`. -/
def loadStep (total : ℕ) (s : LoadState) : LoadEvent → LoadState
  | .success i =>
      let s1 := { s with assets := s.assets ++ [i] }
      let s2 := { s1 with itemsLoaded := s1.itemsLoaded + 1 }
      onProgress total s2
  | .failure _ =>
      let s1 := settle .rejected s
      let s2 := { s1 with itemsLoaded := s1.itemsLoaded + 1 }
      onProgress total s2

/-- Run `load(assets)` against a completion order: fold the per-request
effects over the initial state (no assets, no ended items, pending). -/
def loadRun (events : List LoadEvent) : LoadState :=
  events.foldl (loadStep 4) ⟨[], 0, none⟩

/-- Observable stages of the startup chain
`load(assets).then(() => initialize(assets)).then(render).catch(e => console.error(e))`. -/
inductive StartupStep where
  | initializeRun
  | renderRun
  | catchLog
deriving DecidableEq, Repr

/-- The stage trace of `main` for a given load completion order, where
`initOk` / `renderOk` say whether `initialize` / the first `render` raise.
If the load promise rejects, both `.then` stages are skipped and `.catch`
logs; while it is pending nothing runs; once it resolves, `initialize` runs,
then `render` unless `initialize` threw, and any exception falls through to
`.catch`. -/
def mainRun (events : List LoadEvent) (initOk renderOk : Bool) :
    List StartupStep :=
  match (loadRun events).settled with
  | none => []
  | some .rejected => [.catchLog]
  | some .resolved =>
      if initOk then
        if renderOk then [.initializeRun, .renderRun]
        else [.initializeRun, .renderRun, .catchLog]
      else [.initializeRun, .catchLog]

/-! ## Theorems -/

/-- C10: `createParticleCloud(n)` is total for every numeric `n`, including
negative `n`: whenever `n ≤ 0` the loop body never executes and a valid empty
group is returned, with no error raised. -/
theorem createParticleCloud_nonpos (u : ℕ → ℝ) (n : ℤ) (hn : n ≤ 0) :
    createParticleCloud u n = [] := by
  unfold createParticleCloud
  rw [Int.toNat_of_nonpos hn]
  rfl

/-- Witness for `createParticleCloud_nonpos` at `n = -5`. -/
theorem createParticleCloud_nonpos_witness :
    (-5 : ℤ) ≤ 0 ∧ createParticleCloud (fun _ => 0) (-5) = [] :=
  ⟨by norm_num, createParticleCloud_nonpos (fun _ => 0) (-5) (by norm_num)⟩

/-- C3: for draws in `[0, 1)` and `n ≥ 0`, `createParticleCloud(n)` returns
exactly `n` elements, and each element has azimuth `a ∈ [0, 2π)`, radial
distance `r ∈ [120, 140)`, height `y ∈ [-60, 100]`, position
`(r·cos a, y, r·sin a)`, and per-axis rotation angles in `[0, π)`. -/
theorem createParticleCloud_spec (u : ℕ → ℝ) (hu : ∀ k, 0 ≤ u k ∧ u k < 1)
    (n : ℤ) (hn : 0 ≤ n) :
    ((createParticleCloud u n).length : ℤ) = n ∧
    ∀ m ∈ createParticleCloud u n, ∃ a r y,
      (0 ≤ a ∧ a < 2 * Real.pi) ∧
      (120 ≤ r ∧ r < 140) ∧
      (-60 ≤ y ∧ y ≤ 100) ∧
      m.position = ⟨r * Real.cos a, y, r * Real.sin a⟩ ∧
      (0 ≤ m.rotation.x ∧ m.rotation.x < Real.pi) ∧
      (0 ≤ m.rotation.y ∧ m.rotation.y < Real.pi) ∧
      (0 ≤ m.rotation.z ∧ m.rotation.z < Real.pi) := by
  have hpi := Real.pi_pos
  constructor
  · simp [createParticleCloud, Int.toNat_of_nonneg hn]
  · intro m hm
    simp only [createParticleCloud, List.mem_map, List.mem_range] at hm
    obtain ⟨i, _, rfl⟩ := hm
    obtain ⟨ha0, ha1⟩ := hu (6 * i)
    obtain ⟨hr0, hr1⟩ := hu (6 * i + 1)
    obtain ⟨hy0, hy1⟩ := hu (6 * i + 2)
    obtain ⟨hx0, hx1⟩ := hu (6 * i + 3)
    obtain ⟨hb0, hb1⟩ := hu (6 * i + 4)
    obtain ⟨hc0, hc1⟩ := hu (6 * i + 5)
    refine ⟨random (u (6 * i)) 0 (Real.pi * 2),
            random (u (6 * i + 1)) 120 140,
            random (u (6 * i + 2)) (-60) 100,
            ⟨?_, ?_⟩, ⟨?_, ?_⟩, ⟨?_, ?_⟩, rfl, ⟨?_, ?_⟩, ⟨?_, ?_⟩, ⟨?_, ?_⟩⟩ <;>
      simp only [random, particleAt] <;> nlinarith

/-- Witness for `createParticleCloud_spec` at the constant-zero stream and
`n = 1`. -/
theorem createParticleCloud_spec_witness :
    (∀ _ : ℕ, 0 ≤ (0 : ℝ) ∧ (0 : ℝ) < 1) ∧ (0 : ℤ) ≤ 1 ∧
    (((createParticleCloud (fun _ => 0) 1).length : ℤ) = 1 ∧
     ∀ m ∈ createParticleCloud (fun _ => 0) 1, ∃ a r y,
       (0 ≤ a ∧ a < 2 * Real.pi) ∧
       (120 ≤ r ∧ r < 140) ∧
       (-60 ≤ y ∧ y ≤ 100) ∧
       m.position = ⟨r * Real.cos a, y, r * Real.sin a⟩ ∧
       (0 ≤ m.rotation.x ∧ m.rotation.x < Real.pi) ∧
       (0 ≤ m.rotation.y ∧ m.rotation.y < Real.pi) ∧
       (0 ≤ m.rotation.z ∧ m.rotation.z < Real.pi)) :=
  ⟨fun _ => ⟨le_refl 0, one_pos⟩, by norm_num,
   createParticleCloud_spec (fun _ => 0) (fun _ => ⟨le_refl 0, one_pos⟩) 1
     (by norm_num)⟩

/-- The four ring members, written out (the loop of `initialize` unrolled). -/
lemma initializeObjects_eq (assets : ℕ → Obj3D) :
    initializeObjects assets =
      [ringPlace (assets 0) 0,
       ringPlace (assets 1) (0 + Real.pi * 2 / 4),
       ringPlace (assets 2) (0 + Real.pi * 2 / 4 + Real.pi * 2 / 4),
       ringPlace (assets 3)
         (0 + Real.pi * 2 / 4 + Real.pi * 2 / 4 + Real.pi * 2 / 4)] :=
  rfl

/-- C9: ring placement in `initialize` writes only `position.x` and
`position.z`; the `y` coordinate and the rotation of every ring asset keep
their loaded values. -/
theorem initializeObjects_preserves_y (assets : ℕ → Obj3D) (i : ℕ)
    (hi : i < 4) :
    ((initializeObjects assets).getD i defaultObj).position.y =
      (assets i).position.y ∧
    ((initializeObjects assets).getD i defaultObj).rotation =
      (assets i).rotation := by
  rw [initializeObjects_eq]
  interval_cases i <;> simp [ringPlace]

/-- Witness for `initializeObjects_preserves_y` at constant assets, `i = 2`. -/
theorem initializeObjects_preserves_y_witness :
    (2 : ℕ) < 4 ∧
    (((initializeObjects fun _ => defaultObj).getD 2 defaultObj).position.y =
        (defaultObj).position.y ∧
     ((initializeObjects fun _ => defaultObj).getD 2 defaultObj).rotation =
        (defaultObj).rotation) :=
  ⟨by norm_num,
   initializeObjects_preserves_y (fun _ => defaultObj) 2 (by norm_num)⟩

/-- C1 counterexample: the claim puts ring member 0 at
`x = 100 · cos(0 · π/2) = 100`, but `initialize` assigns
`obj.position.x = -100.0 * Math.cos(angle)`, so member 0 sits at `x = -100`. -/
theorem ring_position_counterexample :
    ((initializeObjects fun _ => defaultObj).getD 0 defaultObj).position.x =
      -100 ∧
    ((initializeObjects fun _ => defaultObj).getD 0 defaultObj).position.x ≠
      100 * Real.cos ((0 : ℕ) * (Real.pi / 2)) := by
  rw [initializeObjects_eq]
  norm_num [ringPlace]

/-- C1 (amended): `initialize(assets)` places ring member `i` (for `i` in
`0..3`, in asset order) at `(x, z) = (-100·cos(i·π/2), -100·sin(i·π/2))` —
the claimed coordinates with the sign flipped, i.e. angle `i·(2π/4) + π` —
which still lies on the radius-100 circle in the horizontal plane. -/
theorem ring_positions (assets : ℕ → Obj3D) (i : ℕ) (hi : i < 4) :
    ((initializeObjects assets).getD i defaultObj).position.x =
      -100 * Real.cos ((i : ℝ) * (Real.pi / 2)) ∧
    ((initializeObjects assets).getD i defaultObj).position.z =
      -100 * Real.sin ((i : ℝ) * (Real.pi / 2)) ∧
    ((initializeObjects assets).getD i defaultObj).position.x ^ 2 +
      ((initializeObjects assets).getD i defaultObj).position.z ^ 2 =
      100 ^ 2 := by
  have hx : ((initializeObjects assets).getD i defaultObj).position.x =
      -100 * Real.cos ((i : ℝ) * (Real.pi / 2)) := by
    rw [initializeObjects_eq]
    interval_cases i <;>
      · simp only [List.getD_cons_zero, List.getD_cons_succ, ringPlace]
        push_cast
        congr 1
        congr 1
        ring
  have hz : ((initializeObjects assets).getD i defaultObj).position.z =
      -100 * Real.sin ((i : ℝ) * (Real.pi / 2)) := by
    rw [initializeObjects_eq]
    interval_cases i <;>
      · simp only [List.getD_cons_zero, List.getD_cons_succ, ringPlace]
        push_cast
        congr 1
        congr 1
        ring
  refine ⟨hx, hz, ?_⟩
  rw [hx, hz]
  linear_combination
    (10000 : ℝ) * Real.sin_sq_add_cos_sq ((i : ℝ) * (Real.pi / 2))

/-- Witness for `ring_positions` at constant assets, `i = 1`. -/
theorem ring_positions_witness :
    (1 : ℕ) < 4 ∧
    (((initializeObjects fun _ => defaultObj).getD 1 defaultObj).position.x =
        -100 * Real.cos ((1 : ℕ) * (Real.pi / 2)) ∧
     ((initializeObjects fun _ => defaultObj).getD 1 defaultObj).position.z =
        -100 * Real.sin ((1 : ℕ) * (Real.pi / 2)) ∧
     ((initializeObjects fun _ => defaultObj).getD 1 defaultObj).position.x ^ 2
        + ((initializeObjects fun _ => defaultObj).getD 1
            defaultObj).position.z ^ 2 = 100 ^ 2) :=
  ⟨by norm_num, ring_positions (fun _ => defaultObj) 1 (by norm_num)⟩

/-- C6: one invocation of `render` with clock delta `d` adds exactly `0.5·d`
to the `y` rotation of every ring member and exactly `0.01·d` to the particle
group's `y` rotation, and changes nothing else: member count, member
positions, member `x`/`z` rotations, the particle group's position and
`x`/`z` rotations, and the particle meshes are all untouched. -/
theorem render_spec (d : ℝ) (s : SceneState) (i : ℕ)
    (hi : i < s.objects.length) :
    (render d s).objects.length = s.objects.length ∧
    ((render d s).objects.getD i defaultObj).rotation.y =
      (s.objects.getD i defaultObj).rotation.y + 0.5 * d ∧
    ((render d s).objects.getD i defaultObj).rotation.x =
      (s.objects.getD i defaultObj).rotation.x ∧
    ((render d s).objects.getD i defaultObj).rotation.z =
      (s.objects.getD i defaultObj).rotation.z ∧
    ((render d s).objects.getD i defaultObj).position =
      (s.objects.getD i defaultObj).position ∧
    (render d s).particles.rotation.y =
      s.particles.rotation.y + 0.01 * d ∧
    (render d s).particles.rotation.x = s.particles.rotation.x ∧
    (render d s).particles.rotation.z = s.particles.rotation.z ∧
    (render d s).particles.position = s.particles.position ∧
    (render d s).particleChildren = s.particleChildren := by
  have hlen : (render d s).objects.length = s.objects.length := by
    simp [render]
  have hget : ∀ j : ℕ, j < s.objects.length →
      (render d s).objects.getD j defaultObj =
        { s.objects.getD j defaultObj with rotation :=
            { (s.objects.getD j defaultObj).rotation with
                y := (s.objects.getD j defaultObj).rotation.y + d * 0.5 } } := by
    intro j hj
    rw [List.getD_eq_getElem _ _ (hlen ▸ hj), List.getD_eq_getElem _ _ hj]
    simp [render]
  rw [hget i hi]
  refine ⟨hlen, by ring, rfl, rfl, rfl, by simp [render]; ring, ?_, ?_, ?_, ?_⟩
    <;> simp [render]

/-- Witness for `render_spec`: a one-member scene at the origin, `d = 2`,
`i = 0`. -/
theorem render_spec_witness :
    (0 : ℕ) < (SceneState.mk [defaultObj] defaultObj []).objects.length ∧
    ((render 2 (SceneState.mk [defaultObj] defaultObj [])).objects.length =
        (SceneState.mk [defaultObj] defaultObj []).objects.length ∧
     ((render 2 (SceneState.mk [defaultObj] defaultObj
          [])).objects.getD 0 defaultObj).rotation.y =
        (((SceneState.mk [defaultObj] defaultObj
            []).objects.getD 0 defaultObj)).rotation.y + 0.5 * 2 ∧
     ((render 2 (SceneState.mk [defaultObj] defaultObj
          [])).objects.getD 0 defaultObj).rotation.x =
        ((SceneState.mk [defaultObj] defaultObj
            []).objects.getD 0 defaultObj).rotation.x ∧
     ((render 2 (SceneState.mk [defaultObj] defaultObj
          [])).objects.getD 0 defaultObj).rotation.z =
        ((SceneState.mk [defaultObj] defaultObj
            []).objects.getD 0 defaultObj).rotation.z ∧
     ((render 2 (SceneState.mk [defaultObj] defaultObj
          [])).objects.getD 0 defaultObj).position =
        ((SceneState.mk [defaultObj] defaultObj
            []).objects.getD 0 defaultObj).position ∧
     (render 2 (SceneState.mk [defaultObj] defaultObj
          [])).particles.rotation.y =
        (SceneState.mk [defaultObj] defaultObj
            []).particles.rotation.y + 0.01 * 2 ∧
     (render 2 (SceneState.mk [defaultObj] defaultObj
          [])).particles.rotation.x =
        (SceneState.mk [defaultObj] defaultObj []).particles.rotation.x ∧
     (render 2 (SceneState.mk [defaultObj] defaultObj
          [])).particles.rotation.z =
        (SceneState.mk [defaultObj] defaultObj []).particles.rotation.z ∧
     (render 2 (SceneState.mk [defaultObj] defaultObj
          [])).particles.position =
        (SceneState.mk [defaultObj] defaultObj []).particles.position ∧
     (render 2 (SceneState.mk [defaultObj] defaultObj
          [])).particleChildren =
        (SceneState.mk [defaultObj] defaultObj []).particleChildren) :=
  ⟨by norm_num,
   render_spec 2 (SceneState.mk [defaultObj] defaultObj []) 0 (by norm_num)⟩

/-- While a timer is pending at `f`, every event strictly before `f` is
ignored, and the timer eventually fires exactly once. -/
lemma debSim_pending_ignores (l : List DebEvent) (f : ℕ)
    (h : ∀ e ∈ l, e.time < f) : debSim l (some f) = [f] := by
  induction l with
  | nil => rfl
  | cons e rest ih =>
      have he : e.time < f := h e (List.mem_cons_self e rest)
      rw [debSim, if_neg (by omega)]
      exact ih fun x hx => h x (List.mem_cons_of_mem e hx)

/-- If every event happens at or before `t`, the dimensions read at `t` are
those of the last event. -/
lemma dimsAt_getLast (t : ℕ) :
    ∀ (l : List DebEvent) (w h : ℕ) (hne : l ≠ [])
      (_ : ∀ e ∈ l, e.time ≤ t),
      dimsAt t l w h = ((l.getLast hne).width, (l.getLast hne).height)
  | [], _, _, hne, _ => absurd rfl hne
  | e :: rest, w, h, _, hall => by
      rw [dimsAt, if_pos (hall e (List.mem_cons_self e rest))]
      cases rest with
      | nil => rfl
      | cons e2 rest2 =>
          rw [dimsAt_getLast t (e2 :: rest2) e.width e.height
                (List.cons_ne_nil e2 rest2)
                (fun x hx => hall x (List.mem_cons_of_mem e hx)),
              List.getLast_cons (List.cons_ne_nil e2 rest2)]

/-- C2 counterexample: three resize events at 0 ms, 50 ms and 100 ms — each
within 66 ms of the previous one, so one burst under the claim — produce two
`handleResize` calls (at 66 ms and 166 ms), not exactly one: the timer is
started by the first event of a burst, not restarted by later ones. -/
theorem onResize_counterexample :
    List.Chain' (fun a b => b.time ≤ a.time + 66)
      [DebEvent.mk 0 10 10, DebEvent.mk 50 20 20, DebEvent.mk 100 30 30] ∧
    handlerCalls 5 5
      [DebEvent.mk 0 10 10, DebEvent.mk 50 20 20, DebEvent.mk 100 30 30] =
      [(66, 20, 20), (166, 30, 30)] ∧
    (handlerCalls 5 5
      [DebEvent.mk 0 10 10, DebEvent.mk 50 20 20,
       DebEvent.mk 100 30 30]).length ≠ 1 := by
  refine ⟨?_, by decide, by decide⟩
  norm_num [List.chain'_cons, List.chain'_singleton]

/-- C2 (amended): for a burst of `N ≥ 1` resize events in which every later
event falls within 66 ms of the **first** event, the debounced `onResize`
causes exactly one `handleResize` call, fired 66 ms after the **first** event
of the burst (the first event starts the timer; while it is pending further
events are ignored — not re-debounced, not queued), and the call reads the
window dimensions current at fire time, which are those of the last event. -/
theorem onResize_burst (w0 h0 : ℕ) (e0 : DebEvent) (rest : List DebEvent)
    (hb : ∀ e ∈ rest, e.time < e0.time + 66) :
    handlerCalls w0 h0 (e0 :: rest) =
      [(e0.time + 66,
        ((e0 :: rest).getLast (List.cons_ne_nil e0 rest)).width,
        ((e0 :: rest).getLast (List.cons_ne_nil e0 rest)).height)] := by
  have hsim : debSim (e0 :: rest) none = [e0.time + 66] := by
    rw [debSim]
    exact debSim_pending_ignores rest (e0.time + 66) hb
  have hall : ∀ e ∈ e0 :: rest, e.time ≤ e0.time + 66 := by
    intro e he
    rcases List.mem_cons.mp he with h | h
    · subst h
      omega
    · exact le_of_lt (hb e h)
  rw [handlerCalls, hsim, List.map_singleton,
      dimsAt_getLast (e0.time + 66) (e0 :: rest) w0 h0
        (List.cons_ne_nil e0 rest) hall]

/-- Witness for `onResize_burst`: events at 0 ms and 30 ms, one call at 66 ms
reading the 30 ms dimensions. -/
theorem onResize_burst_witness :
    (∀ e ∈ [DebEvent.mk 30 20 20], e.time < (DebEvent.mk 0 10 10).time + 66) ∧
    handlerCalls 5 5 [DebEvent.mk 0 10 10, DebEvent.mk 30 20 20] =
      [(66, 20, 20)] := by
  refine ⟨by decide, ?_⟩
  have h := onResize_burst 5 5 (DebEvent.mk 0 10 10) [DebEvent.mk 30 20 20]
    (by decide)
  simpa using h

/-- `settle` never changes the asset map. -/
lemma settle_assets (r : LoadResult) (s : LoadState) :
    (settle r s).assets = s.assets := by
  unfold settle
  split <;> rfl

/-- `settle` never changes the count of ended items. -/
lemma settle_itemsLoaded (r : LoadResult) (s : LoadState) :
    (settle r s).itemsLoaded = s.itemsLoaded := by
  unfold settle
  split <;> rfl

/-- A promise that has already settled keeps its first outcome. -/
lemma settle_of_some (r r0 : LoadResult) (s : LoadState)
    (h : s.settled = some r0) : (settle r s).settled = some r0 := by
  unfold settle
  split
  · exact h
  · rename_i heq
    rw [h] at heq
    simp at heq

/-- A pending promise settles with the outcome passed to `settle`. -/
lemma settle_of_none (r : LoadResult) (s : LoadState)
    (h : s.settled = none) : (settle r s).settled = some r := by
  unfold settle
  rw [h]

/-- `onProgress` never changes the asset map. -/
lemma onProgress_assets (t : ℕ) (s : LoadState) :
    (onProgress t s).assets = s.assets := by
  unfold onProgress
  split
  · exact settle_assets _ _
  · rfl

/-- `onProgress` never changes the count of ended items. -/
lemma onProgress_itemsLoaded (t : ℕ) (s : LoadState) :
    (onProgress t s).itemsLoaded = s.itemsLoaded := by
  unfold onProgress
  split
  · exact settle_itemsLoaded _ _
  · rfl

/-- `onProgress` cannot overwrite an outcome the promise already has. -/
lemma onProgress_of_some (t : ℕ) (r : LoadResult) (s : LoadState)
    (h : s.settled = some r) : (onProgress t s).settled = some r := by
  unfold onProgress
  split
  · exact settle_of_some _ _ _ h
  · exact h

/-- A settled promise stays settled with the same outcome through any
further completion. -/
lemma loadStep_settled_persist (t : ℕ) (s : LoadState) (e : LoadEvent)
    (r : LoadResult) (h : s.settled = some r) :
    (loadStep t s e).settled = some r := by
  cases e with
  | success i =>
      simp only [loadStep]
      exact onProgress_of_some _ _ _ h
  | failure j =>
      simp only [loadStep]
      exact onProgress_of_some _ _ _ (settle_of_some _ _ _ h)

/-- A settled promise stays settled with the same outcome through any
sequence of further completions. -/
lemma loadRun_settled_persist (events : List LoadEvent) (s : LoadState)
    (r : LoadResult) (h : s.settled = some r) :
    (events.foldl (loadStep 4) s).settled = some r := by
  induction events generalizing s with
  | nil => exact h
  | cons e rest ih =>
      exact ih (loadStep 4 s e) (loadStep_settled_persist 4 s e r h)

/-- Each completion, success or failure, increments the manager's count of
ended items by exactly one. -/
lemma loadStep_itemsLoaded (t : ℕ) (s : LoadState) (e : LoadEvent) :
    (loadStep t s e).itemsLoaded = s.itemsLoaded + 1 := by
  cases e with
  | success i =>
      simp only [loadStep]
      rw [onProgress_itemsLoaded]
  | failure j =>
      simp only [loadStep]
      rw [onProgress_itemsLoaded]
      show (settle .rejected s).itemsLoaded + 1 = s.itemsLoaded + 1
      rw [settle_itemsLoaded]

/-- A successful completion appends its key to the asset map. -/
lemma loadStep_success_assets (t : ℕ) (s : LoadState) (i : ℕ) :
    (loadStep t s (.success i)).assets = s.assets ++ [i] := by
  simp only [loadStep]
  rw [onProgress_assets]

/-- A successful completion that does not reach the total leaves a pending
promise pending. -/
lemma loadStep_success_settled (t : ℕ) (s : LoadState) (i : ℕ)
    (hs : s.settled = none) (hne : s.itemsLoaded + 1 ≠ t) :
    (loadStep t s (.success i)).settled = none := by
  simp only [loadStep, onProgress]
  split
  · rename_i hcond
    exact absurd hcond hne
  · exact hs

/-- Successful completions append their keys to the asset map in completion
order. -/
lemma foldl_success_assets (l : List ℕ) (s : LoadState) :
    ((l.map LoadEvent.success).foldl (loadStep 4) s).assets =
      s.assets ++ l := by
  induction l generalizing s with
  | nil => simp
  | cons i rest ih =>
      simp only [List.map_cons, List.foldl_cons]
      rw [ih (loadStep 4 s (.success i)), loadStep_success_assets]
      simp

/-- As long as fewer than `total` items have ended, a run of successful
completions cannot settle the promise. -/
lemma foldl_success_settled_none (l : List ℕ) (s : LoadState)
    (hs : s.settled = none)
    (hlen : s.itemsLoaded + l.length < 4) :
    ((l.map LoadEvent.success).foldl (loadStep 4) s).settled = none := by
  induction l generalizing s with
  | nil => exact hs
  | cons i rest ih =>
      have hne : s.itemsLoaded + 1 ≠ 4 := by
        simp only [List.length_cons] at hlen
        omega
      have hstep := loadStep_success_settled 4 s i hs hne
      have hcount := loadStep_itemsLoaded 4 s (.success i)
      simp only [List.map_cons, List.foldl_cons]
      refine ih (loadStep 4 s (.success i)) hstep ?_
      simp only [List.length_cons] at hlen
      omega

/-- If a run of successful completions drawn from the four requests has
resolved the promise, every one of the four keys has been written: the
resolving `onProgress` call can only be the one after the fourth `itemEnd`. -/
lemma loadRun_resolved_assets (l l2 : List ℕ) (hp : l.Perm [0, 1, 2, 3])
    (hpre : l2 <+: l)
    (hres : (loadRun (l2.map .success)).settled = some .resolved) :
    ∀ i, i < 4 → i ∈ (loadRun (l2.map .success)).assets := by
  have hlen4 : l.length = 4 := hp.length_eq
  have hle : l2.length ≤ 4 := hlen4 ▸ hpre.length_le
  rcases lt_or_eq_of_le hle with hlt | heq
  · exfalso
    have : (loadRun (l2.map .success)).settled = none := by
      unfold loadRun
      exact foldl_success_settled_none l2 ⟨[], 0, none⟩ rfl (by simpa using hlt)
    rw [this] at hres
    exact Option.noConfusion hres
  · have hl2 : l2 = l := hpre.eq_of_length (by omega)
    subst hl2
    have hassets : (loadRun (l2.map .success)).assets = l2 := by
      unfold loadRun
      rw [foldl_success_assets l2 ⟨[], 0, none⟩]
      rfl
    intro i hi
    rw [hassets, hp.mem_iff]
    interval_cases i <;> simp

/-- C4: when all 4 model requests succeed, in whatever completion order, the
promise returned by `load(assets)` resolves only once every key
`"object0".."object3"` is present: at every point of the execution at which
it has resolved, no key is missing. -/
theorem load_resolves_complete (l l2 : List ℕ) (hp : l.Perm [0, 1, 2, 3])
    (hpre : l2 <+: l)
    (hres : (loadRun (l2.map .success)).settled = some .resolved) :
    ∀ i, i < 4 → i ∈ (loadRun (l2.map .success)).assets :=
  loadRun_resolved_assets l l2 hp hpre hres

/-- Witness for `load_resolves_complete`: completion order 2, 0, 3, 1. -/
theorem load_resolves_complete_witness :
    List.Perm [2, 0, 3, 1] [0, 1, 2, 3] ∧
    [2, 0, 3, 1] <+: [2, 0, 3, 1] ∧
    (loadRun ([2, 0, 3, 1].map .success)).settled = some .resolved ∧
    3 ∈ (loadRun ([2, 0, 3, 1].map .success)).assets :=
  ⟨by decide, by decide, by decide,
   load_resolves_complete [2, 0, 3, 1] [2, 0, 3, 1] (by decide) (by decide)
     (by decide) 3 (by decide)⟩

/-- The first failure rejects a still-pending promise, and nothing after it
can change that. -/
lemma loadStep_failure_rejects (s : LoadState) (j : ℕ)
    (hs : s.settled = none) :
    (loadStep 4 s (.failure j)).settled = some .rejected := by
  simp only [loadStep]
  exact onProgress_of_some _ _ _ (settle_of_none .rejected s hs)

/-- C5: in every execution in which some model request fails, the promise
returned by `load(assets)` is rejected at the first failure — whatever the
state of the other requests at that moment (`pre` lists the successful
completions so far, `rest` whatever happens afterwards) — and stays
rejected; there is no partial-success path and no retry. -/
theorem load_rejects_first_failure (pre : List ℕ) (j : ℕ)
    (rest : List LoadEvent) (hlen : pre.length < 4) :
    (loadRun (pre.map .success ++ [.failure j])).settled = some .rejected ∧
    (loadRun (pre.map .success ++ [.failure j] ++ rest)).settled =
      some .rejected := by
  have hnone : ((pre.map LoadEvent.success).foldl (loadStep 4)
      ⟨[], 0, none⟩).settled = none :=
    foldl_success_settled_none pre ⟨[], 0, none⟩ rfl (by simpa using hlen)
  have hrej : (loadRun (pre.map .success ++ [.failure j])).settled =
      some .rejected := by
    unfold loadRun
    rw [List.foldl_append]
    exact loadStep_failure_rejects _ j hnone
  refine ⟨hrej, ?_⟩
  unfold loadRun
  rw [List.foldl_append]
  exact loadRun_settled_persist rest _ .rejected hrej

/-- Witness for `load_rejects_first_failure`: request 0 succeeds, request 3
fails, request 1 succeeds afterwards. -/
theorem load_rejects_first_failure_witness :
    [0].length < 4 ∧
    ((loadRun ([0].map .success ++ [.failure 3])).settled = some .rejected ∧
     (loadRun ([0].map .success ++ [.failure 3] ++
        [.success 1])).settled = some .rejected) :=
  ⟨by decide, load_rejects_first_failure [0] 3 [.success 1] (by decide)⟩

/-- C7: the startup phases of
`load(assets).then(() => initialize(assets)).then(render).catch(...)` are
strictly ordered: `initialize` runs only once the load promise has resolved;
`render` runs only after `initialize`, earlier in the trace; if loading
rejects, `initialize` (and `render`) are skipped entirely; and when the four
requests succeed in any order, at the moment `initialize` is invoked all four
asset keys are present — it never sees a partial asset set. -/
theorem startup_ordering (events : List LoadEvent) (initOk renderOk : Bool) :
    (StartupStep.initializeRun ∈ mainRun events initOk renderOk →
       (loadRun events).settled = some .resolved) ∧
    (StartupStep.renderRun ∈ mainRun events initOk renderOk →
       StartupStep.initializeRun ∈ mainRun events initOk renderOk ∧
       (mainRun events initOk renderOk).indexOf StartupStep.initializeRun <
         (mainRun events initOk renderOk).indexOf StartupStep.renderRun) ∧
    ((loadRun events).settled = some .rejected →
       StartupStep.initializeRun ∉ mainRun events initOk renderOk ∧
       StartupStep.renderRun ∉ mainRun events initOk renderOk) ∧
    (∀ l : List ℕ, l.Perm [0, 1, 2, 3] → events = l.map .success →
       StartupStep.initializeRun ∈ mainRun events initOk renderOk →
       ∀ i, i < 4 → i ∈ (loadRun events).assets) := by
  refine ⟨?_, ?_, ?_, ?_⟩
  · intro hmem
    rcases hres : (loadRun events).settled with _ | r
    · simp [mainRun, hres] at hmem
    · cases r
      · rfl
      · simp [mainRun, hres] at hmem
  · intro hmem
    rcases hres : (loadRun events).settled with _ | r
    · simp [mainRun, hres] at hmem
    · cases r
      · cases initOk <;> cases renderOk <;>
          simp_all [mainRun, List.indexOf_cons]
      · simp [mainRun, hres] at hmem
  · intro hres
    simp [mainRun, hres]
  · intro l hp hev hmem i hi
    subst hev
    have hres : (loadRun (l.map .success)).settled = some .resolved := by
      rcases hres2 : (loadRun (l.map .success)).settled with _ | r
      · simp [mainRun, hres2] at hmem
      · cases r
        · rfl
        · simp [mainRun, hres2] at hmem
    exact loadRun_resolved_assets l l hp (List.prefix_refl l) hres i hi

/-- Witness for `startup_ordering`: all four requests succeed in order
0, 1, 2, 3 and neither stage throws. -/
theorem startup_ordering_witness :
    ((loadRun ([0, 1, 2, 3].map .success)).settled = some .resolved) ∧
    (StartupStep.initializeRun ∈
        mainRun ([0, 1, 2, 3].map .success) true true ∧
      (mainRun ([0, 1, 2, 3].map .success) true true).indexOf
          StartupStep.initializeRun <
        (mainRun ([0, 1, 2, 3].map .success) true true).indexOf
          StartupStep.renderRun) ∧
    2 ∈ (loadRun ([0, 1, 2, 3].map .success)).assets := by
  refine ⟨?_, ?_, ?_⟩
  · exact (startup_ordering ([0, 1, 2, 3].map .success) true true).1
      (by decide)
  · exact (startup_ordering ([0, 1, 2, 3].map .success) true true).2.1
      (by decide)
  · exact (startup_ordering ([0, 1, 2, 3].map .success) true true).2.2.2
      [0, 1, 2, 3] (by decide) rfl (by decide) 2 (by decide)

/-- C8: every asynchronous failure in the startup sequence funnels to the
single top-level `catch`, which logs and recovers nothing: a load rejection
skips both stages and only logs; an exception in `initialize` skips `render`
and ends in the log; an exception in the first `render` ends in the log; and
when nothing fails, the catch handler never runs. -/
theorem startup_failure_propagation (events : List LoadEvent)
    (initOk renderOk : Bool) :
    ((loadRun events).settled = some .rejected →
       mainRun events initOk renderOk = [.catchLog]) ∧
    ((loadRun events).settled = some .resolved → initOk = false →
       mainRun events initOk renderOk = [.initializeRun, .catchLog]) ∧
    ((loadRun events).settled = some .resolved → initOk = true →
       renderOk = false →
       mainRun events initOk renderOk =
         [.initializeRun, .renderRun, .catchLog]) ∧
    ((loadRun events).settled = some .resolved → initOk = true →
       renderOk = true →
       StartupStep.catchLog ∉ mainRun events initOk renderOk) := by
  refine ⟨?_, ?_, ?_, ?_⟩
  · intro hres
    simp [mainRun, hres]
  · intro hres hinit
    simp [mainRun, hres, hinit]
  · intro hres hinit hrender
    simp [mainRun, hres, hinit, hrender]
  · intro hres hinit hrender
    simp [mainRun, hres, hinit, hrender]

/-- Witness for `startup_failure_propagation`: request 1 fails first, so the
whole startup collapses to the logging catch handler. -/
theorem startup_failure_propagation_witness :
    (loadRun [.failure 1, .success 0]).settled = some .rejected ∧
    mainRun [.failure 1, .success 0] true true = [.catchLog] :=
  ⟨by decide,
   (startup_failure_propagation [.failure 1, .success 0] true true).1
     (by decide)⟩

end ObjDemo
